import Mathlib

/-!
Verification development for the Resumagic keyword-analysis engine
(`kw_rank`): a shallow embedding in Lean 4 of the scoring,
categorization, knockout-enforcement, degree-guardrail, clustering,
trimming, selection and injection-point code, together with theorems
settling the behavioural properties stated for it.

Conventions of the embedding:
  * Python floats are modelled as `ℚ` (the module works with small
    decimal constants; no claim under study depends on binary rounding).
  * Python dicts produced by `create_keyword_result` are modelled by the
    structure `KwResult`; the `category` string takes only the two values
    `'knockout'` and `'skill'` in the source, modelled by `Category`.
  * `re.search` over the concrete patterns of `config/constants.py` is
    modelled by a small backtracking matcher over sequences of atoms
    (`SAtom`); alternations are expanded to one flat atom sequence per
    alternative, so a pattern is a `List (List SAtom)` and a search
    succeeds when some alternative matches at some position.  This has
    exactly the success/failure semantics of `re.search` for these
    patterns (none uses anchors or backreferences; greedy-versus-lazy
    repetition does not change whether a match exists).
  * External collaborators (the sentence-embedding model, TF-IDF
    vectorizer, cosine similarity) enter only through their output
    values, which are parameters of the embedded functions, exactly as
    the spec scopes them.
-/

/-! ## Characters and strings -/

/-- ASCII apostrophe, written by code point to keep pattern tables readable. -/
def apos : Char := Char.ofNat 39

/-- Python `\w`: letters, digits and underscore (ASCII view). -/
def isWordChar (c : Char) : Bool := c.isAlphanum || c = '_'

/-- Python `\s` (ASCII view): space, tab, newline, carriage return,
form feed and vertical tab. -/
def isSpaceChar (c : Char) : Bool :=
  c = ' ' || c = '\t' || c = '\n' || c = '\r' || c = '\x0b' || c = '\x0c'

/-- Python `str.lower()`: lower-case each character.  (`String.toLower`
is this same map; the explicit form keeps it kernel-evaluable.) -/
def pyLower (s : String) : String := ⟨s.data.map Char.toLower⟩

/-- Python `str.strip()` (ASCII whitespace view). -/
def pyStrip (s : String) : String :=
  ⟨((s.data.dropWhile isSpaceChar).reverse.dropWhile isSpaceChar).reverse⟩

/-- Substring test on character lists (Python `needle in hay`). -/
def listContains (hay needle : List Char) : Bool :=
  needle.isPrefixOf hay ||
    match hay with
    | [] => false
    | _ :: t => listContains t needle

/-- Python `needle in hay` on strings. -/
def strContains (hay needle : String) : Bool :=
  listContains hay.data needle.data

/-- Whitespace-run splitter behind Python `str.split()` (no empties). -/
def wordsByAux (acc : List Char) : List Char → List (List Char)
  | [] => if acc = [] then [] else [acc.reverse]
  | c :: cs =>
      if isSpaceChar c then
        if acc = [] then wordsByAux [] cs else acc.reverse :: wordsByAux [] cs
      else wordsByAux (c :: acc) cs

/-- Python `str.split()` : split on whitespace runs, dropping empties. -/
def splitWS (s : String) : List String :=
  (wordsByAux [] s.data).map (fun cs => ⟨cs⟩)

/-- Python `str.split('\n')`: split at every newline, keeping empties
(never an empty list). -/
def splitLinesAux : List Char → List (List Char)
  | [] => [[]]
  | c :: cs =>
      if c = '\n' then [] :: splitLinesAux cs
      else
        match splitLinesAux cs with
        | [] => [[c]]
        | h :: t => (c :: h) :: t

def pySplitLines (s : String) : List String :=
  (splitLinesAux s.data).map (fun cs => ⟨cs⟩)

/-- Python `len` on a string (character count). -/
def pyLen (s : String) : ℕ := s.data.length

/-- Python slicing `s[:n]`. -/
def pyTake (s : String) (n : ℕ) : String := ⟨s.data.take n⟩

/-- String append at the character level (what `++` does). -/
def pyAppend (s t : String) : String := ⟨s.data ++ t.data⟩

/-! ## A small matcher for the concrete regular expressions

Character classes appearing in the configured patterns. -/

inductive CClass where
  | digit      -- `\d`
  | space      -- `\s`
  | wordc      -- `\w`
  | dot        -- `.` (anything but a newline)
  | dashc      -- the class `[-\u2013]`
  | spaceSlash -- the class `[\s/]`
deriving DecidableEq

def CClass.mem : CClass → Char → Bool
  | .digit, c => c.isDigit
  | .space, c => isSpaceChar c
  | .wordc, c => isWordChar c
  | .dot, c => c ≠ '\n'
  | .dashc, c => c = '-' || c = '–'
  | .spaceSlash, c => isSpaceChar c || c = '/'

/-- One atom of a (flattened) regular expression alternative. -/
inductive SAtom where
  | lit (w : List Char)   -- a literal run of characters
  | one (c : CClass)      -- exactly one character of the class
  | star (c : CClass)     -- zero or more characters of the class
  | plus (c : CClass)     -- one or more characters of the class
  | optC (ch : Char)      -- an optional single character (`x?`)
  | bnd                   -- the word boundary `\b`
deriving DecidableEq

/-- Is the optional character a word character (for `\b`)? -/
def isWordOpt : Option Char → Bool
  | some c => isWordChar c
  | none => false

/-- Head of the remaining text, for `\b`. -/
def headIsWord : List Char → Bool
  | [] => false
  | c :: _ => isWordChar c

/-- Every state reachable by consuming zero or more characters of class
`c`: each entry is (character just consumed, remaining text). -/
def classSpans (c : CClass) : Option Char → List Char → List (Option Char × List Char)
  | prev, [] => [(prev, [])]
  | prev, x :: xs =>
      (prev, x :: xs) :: (if c.mem x then classSpans c (some x) xs else [])

/-- `matchSeq atoms prev text`: can the atom sequence consume a prefix of
`text`?  `prev` is the character just before `text` (for `\b`).
Repetition atoms branch over every possible consumption length
(`classSpans`), so success coincides with the existence of an NFA
match — the semantics of `re.search` restricted to whether it finds a
match at this position. -/
def matchSeq : List SAtom → Option Char → List Char → Bool
  | [], _, _ => true
  | .lit w :: as, prev, t =>
      w.isPrefixOf t &&
        matchSeq as (match w.getLast? with | some c => some c | none => prev)
          (t.drop w.length)
  | .one c :: as, _, t =>
      match t with
      | [] => false
      | x :: xs => c.mem x && matchSeq as (some x) xs
  | .star c :: as, prev, t =>
      (classSpans c prev t).any (fun st => matchSeq as st.1 st.2)
  | .plus c :: as, _, t =>
      match t with
      | [] => false
      | x :: xs =>
          c.mem x && (classSpans c (some x) xs).any (fun st => matchSeq as st.1 st.2)
  | .optC ch :: as, prev, t =>
      (match t with
       | x :: xs => x = ch && matchSeq as (some x) xs
       | [] => false) ||
        matchSeq as prev t
  | .bnd :: as, prev, t =>
      (isWordOpt prev != headIsWord t) && matchSeq as prev t

/-- Try the sequence at every start position (Python `re.search`). -/
def searchFrom (p : List SAtom) : Option Char → List Char → Bool
  | prev, t =>
      matchSeq p prev t ||
        match t with
        | [] => false
        | x :: xs => searchFrom p (some x) xs

/-- A pattern is a list of flattened alternatives; `re.search` succeeds
when some alternative matches at some position. -/
def reSearch (pat : List (List SAtom)) (cs : List Char) : Bool :=
  pat.any (fun sq => searchFrom sq none cs)

/-! ## Configured patterns (`config/constants.py`)

`lw s` is the literal atom for `s`. -/

def lw (s : String) : SAtom := .lit s.data

/-- The spelled-out number words of the years patterns. -/
def spelledNumbers : List String :=
  ["one", "two", "three", "four", "five", "six", "seven", "eight", "nine",
   "ten", "eleven", "twelve", "thirteen", "fourteen", "fifteen", "sixteen",
   "seventeen", "eighteen", "nineteen", "twenty"]

/-- `KnockoutConfig.years_patterns`, each regex flattened to its
alternatives, in configuration order:
`\d+\+?\s*years?`, `\d+\s*[-–]\s*\d+\s*years?`, `minimum\s+\d+\s*years?`,
`\d+\s*years?\s*minimum`, then the same four shapes with spelled-out
numbers. -/
def yearsPatterns : List (List SAtom) :=
  [[.plus .digit, .optC '+', .star .space, lw "year", .optC 's'],
   [.plus .digit, .star .space, .one .dashc, .star .space, .plus .digit,
    .star .space, lw "year", .optC 's'],
   [lw "minimum", .plus .space, .plus .digit, .star .space, lw "year", .optC 's'],
   [.plus .digit, .star .space, lw "year", .optC 's', .star .space, lw "minimum"]]
  ++ spelledNumbers.map (fun w => [lw w, .optC '+', .star .space, lw "year", .optC 's'])
  ++ spelledNumbers.flatMap (fun w1 => spelledNumbers.map (fun w2 =>
       [lw w1, .star .space, .one .dashc, .star .space, lw w2,
        .star .space, lw "year", .optC 's']))
  ++ spelledNumbers.map (fun w =>
       [lw "minimum", .plus .space, lw w, .star .space, lw "year", .optC 's'])
  ++ spelledNumbers.map (fun w =>
       [lw w, .star .space, lw "year", .optC 's', .star .space, lw "minimum"])

/-- `KnockoutConfig.soft_skill_exclusions` (15 patterns). -/
def softSkillPatterns : List (List SAtom) :=
  [[lw "leadership", .plus .space, lw "style"],
   [lw "communication", .plus .space, lw "skills"],
   [lw "strategic", .plus .space, lw "thinking"],
   [lw "problem", .plus .space, lw "solving"],
   [lw "team", .plus .space, lw "player"],
   [lw "passion"], [lw "enthusiasm"], [lw "mindset"], [lw "empathy"],
   [lw "collaborative"], [lw "innovative"], [lw "customer-obsessed"],
   [lw "results-oriented"], [lw "data-driven"], [lw "fast-paced"]]

/-- One entry of `KnockoutConfig.hard_patterns` is one regex; the regex is
the `List (List SAtom)` of its flattened alternatives. -/
def hardPatterns : List (List (List SAtom)) :=
  [ -- bachelor\'?s?\s*degree
    [[lw "bachelor", .optC apos, .optC 's', .star .space, lw "degree"]],
    -- master\'?s?\s*degree
    [[lw "master", .optC apos, .optC 's', .star .space, lw "degree"]],
    -- \bmba\b
    [[.bnd, lw "mba", .bnd]],
    -- \bphd\b
    [[.bnd, lw "phd", .bnd]],
    -- \b(bs|ms|ba|ma)\s+(degree|in)
    (["bs", "ms", "ba", "ma"].flatMap (fun w1 => ["degree", "in"].map (fun w2 =>
       [.bnd, lw w1, .plus .space, lw w2]))),
    -- degree\s+in\s+\w+
    [[lw "degree", .plus .space, lw "in", .plus .space, .plus .wordc]],
    -- bachelor\'?s?(?:[\s/]|in|degree)
    [[lw "bachelor", .optC apos, .optC 's', .one .spaceSlash],
     [lw "bachelor", .optC apos, .optC 's', lw "in"],
     [lw "bachelor", .optC apos, .optC 's', lw "degree"]],
    -- master\'?s?(?:[\s/]|in|degree)
    [[lw "master", .optC apos, .optC 's', .one .spaceSlash],
     [lw "master", .optC apos, .optC 's', lw "in"],
     [lw "master", .optC apos, .optC 's', lw "degree"]],
    -- bachelor\'?s?/master\'?s?
    [[lw "bachelor", .optC apos, .optC 's', lw "/", lw "master", .optC apos, .optC 's']],
    -- (bachelor\'?s?|master\'?s?)\s+in\s+\w+
    [[lw "bachelor", .optC apos, .optC 's', .plus .space, lw "in", .plus .space, .plus .wordc],
     [lw "master", .optC apos, .optC 's', .plus .space, lw "in", .plus .space, .plus .wordc]],
    -- (extensive|significant|frequent).*travel
    (["extensive", "significant", "frequent"].map (fun w =>
       [lw w, .star .dot, lw "travel"])),
    -- travel.*required
    [[lw "travel", .star .dot, lw "required"]],
    -- willing to travel
    [[lw "willing to travel"]],
    -- travel.*\d+%
    [[lw "travel", .star .dot, .plus .digit, lw "%"]],
    -- up to \d+%.*travel
    [[lw "up to ", .plus .digit, lw "%", .star .dot, lw "travel"]],
    -- (director|vp|vice\s+president|chief|head)\s+(of\s+)?(product|marketing)
    (([[lw "director"], [lw "vp"], [lw "vice", .plus .space, lw "president"],
       [lw "chief"], [lw "head"]] : List (List SAtom)).flatMap (fun h =>
      (([[], [lw "of", .plus .space]] : List (List SAtom)).flatMap (fun m =>
        (["product", "marketing"].map (fun l =>
          h ++ [.plus .space] ++ m ++ [lw l]))))))]

/-- `KnockoutConfig.medium_patterns` (2 regexes). -/
def mediumPatterns : List (List (List SAtom)) :=
  [ -- (required|preferred|must\s+have).*\b(degree|education|bachelor|master|mba)
    (([[lw "required"], [lw "preferred"], [lw "must", .plus .space, lw "have"]] :
        List (List SAtom)).flatMap (fun f =>
      ["degree", "education", "bachelor", "master", "mba"].map (fun w =>
        f ++ [.star .dot, .bnd, lw w]))),
    -- \b(degree|bachelor|master|mba).*(required|preferred)
    (["degree", "bachelor", "master", "mba"].flatMap (fun w =>
      ["required", "preferred"].map (fun r =>
        [.bnd, lw w, .star .dot, lw r])))]

/-- `r'\d+\+?\s*years?'` used inside `calculate_knockout_confidence`. -/
def simpleYearsPattern : List (List SAtom) :=
  [[.plus .digit, .optC '+', .star .space, lw "year", .optC 's']]

/-- `r'\b(degree|bachelor|master|mba|phd)\b'` used inside
`calculate_knockout_confidence`. -/
def degreeMentionPattern : List (List SAtom) :=
  ["degree", "bachelor", "master", "mba", "phd"].map (fun w => [.bnd, lw w, .bnd])

/-- The degree-guardrail regex of `kw_rank/main.py`:
`\b(degree|bachelor|master|mba|phd|computer\s+science)\b`, IGNORECASE. -/
def guardrailDegreePattern : List (List SAtom) :=
  (["degree", "bachelor", "master", "mba", "phd"].map (fun w => [.bnd, lw w, .bnd]))
  ++ [[.bnd, lw "computer", .plus .space, lw "science", .bnd]]

/-- `experience_patterns` of `clustering.py` (5 regexes, one alternative each). -/
def experiencePatterns : List (List SAtom) :=
  [[.plus .digit, .optC '+', .star .space, lw "year", .optC 's', .plus .space,
    lw "in", .plus .space],
   [.plus .digit, .optC '+', .star .space, lw "year", .optC 's', .plus .space,
    lw "of", .plus .space],
   [.plus .digit, .optC '+', .star .space, lw "year", .optC 's', .plus .space,
    lw "experience"],
   [.plus .digit, .optC '+', .star .space, lw "year", .optC 's', .plus .space,
    lw "leading"],
   [.plus .digit, .optC '+', .star .space, lw "year", .optC 's', .plus .space,
    lw "managing"]]

/-- `title_patterns` of `extract_job_title` (both regexes, flattened;
spaces inside the alternatives are literal, `\s+.*?` is one-or-more
whitespace then anything). -/
def jobTitlePatterns : List (List SAtom) :=
  (["director", "vp", "vice president", "head of", "lead", "manager",
    "senior", "principal"].flatMap (fun h =>
     ["product", "engineering", "growth"].map (fun t =>
       [lw h, .plus .space, .star .dot, lw t])))
  ++ (["product", "engineering", "growth"].flatMap (fun t =>
       ["director", "vp", "vice president", "head of", "lead", "manager"].map (fun h =>
         [lw t, .plus .space, .star .dot, lw h])))

/-! ## Configured constants -/

def scoringTfidfWeight : ℚ := mkRat 11 20      -- ScoringWeights.tfidf = 0.55
def scoringSectionWeight : ℚ := mkRat 1 4      -- ScoringWeights.section = 0.25
def scoringRoleWeight : ℚ := mkRat 1 5         -- ScoringWeights.role = 0.2
def roleCoreWeight : ℚ := mkRat 6 5            -- RoleWeights.core = 1.2
def roleImportantWeight : ℚ := mkRat 3 5       -- RoleWeights.important = 0.6
def roleCultureWeight : ℚ := mkRat 3 10        -- RoleWeights.culture = 0.3
def buzzwordPenalty : ℚ := mkRat 7 10          -- BuzzwordConfig.penalty = 0.7
def executivePenaltyFactor : ℚ := mkRat 4 5    -- BuzzwordConfig.executive_penalty = 0.8
def executiveBoostFactor : ℚ := mkRat 23 20    -- BuzzwordConfig.executive_boost = 1.15
def maxKnockoutsDefault : ℕ := 5         -- KnockoutConfig.max_knockouts
def confidenceThreshold : ℚ := mkRat 3 5       -- KnockoutConfig.confidence_threshold = 0.6
def hardPatternWeight : ℚ := mkRat 3 5         -- 0.6
def mediumPatternWeight : ℚ := mkRat 3 10      -- 0.3
def yearsHighRoleWeight : ℚ := mkRat 2 5       -- 0.4
def degreeHighRoleWeight : ℚ := mkRat 2 5      -- 0.4
def requiredLanguageWeight : ℚ := mkRat 1 5    -- 0.2
def medianMultiplierDefault : ℚ := mkRat 6 5   -- ClusteringConfig.median_multiplier = 1.2
def minKeywordsDefault : ℕ := 10         -- ClusteringConfig.min_keywords
def similarityThreshold : ℚ := mkRat 7 10      -- InjectionConfig.similarity_threshold
def highSimilarityThreshold : ℚ := mkRat 4 5   -- InjectionConfig.high_similarity_threshold
def minWordLength : ℕ := 3               -- InjectionConfig.min_word_length

/-- `BuzzwordConfig.buzzwords` (a Python set; only membership is used). -/
def buzzwords : List String :=
  ["vision", "strategy", "strategic", "roadmap", "delivery", "execution",
   "discovery", "innovation", "data-driven", "metrics", "kpis", "scalable",
   "alignment", "ownership", "stakeholders", "go-to-market", "collaboration",
   "agile", "sprint", "backlog", "prioritization", "user-centric",
   "customer-centric", "outcomes", "best practices", "cross-functional",
   "communication", "leadership", "fast-paced", "results-oriented",
   "growth hacking", "roi", "north star", "market research", "ecosystem"]

/-- `BuzzwordConfig.executive_buzzwords`. -/
def executiveBuzzwords : List String :=
  ["thought leadership", "best-in-class", "world-class", "cutting-edge",
   "bleeding-edge", "paradigm shift", "game-changer", "disruptive",
   "revolutionary", "transformational", "synergies", "low-hanging fruit",
   "move the needle", "boil the ocean", "circle back", "touch base",
   "drill down", "deep dive", "take offline", "leverage synergies",
   "actionable insights", "holistic approach", "end-to-end solution",
   "turn-key", "enterprise-grade", "mission-critical", "scalable solution",
   "robust framework", "seamless integration", "optimize efficiency",
   "maximize roi", "drive value"]

/-- `BuzzwordConfig.executive_vocabulary`. -/
def executiveVocabulary : List String :=
  ["p&l", "p&l responsibility", "revenue ownership", "business outcomes",
   "portfolio management", "cross-functional leadership",
   "organizational design", "board reporting", "investor relations",
   "market expansion", "acquisition integration", "team scaling",
   "hiring plans", "culture building", "succession planning",
   "executive presence", "strategic partnerships", "competitive positioning",
   "go-to-market execution", "budget ownership", "headcount planning",
   "performance management", "talent development", "executive coaching",
   "vp of product", "director of product", "head of product",
   "chief product officer", "product portfolio", "platform strategy",
   "product vision", "product leadership", "executive team",
   "leadership team", "senior leadership", "c-suite"]

/-- `OutputConfig.compound_multipliers`, in dict insertion order (the code
returns the multiplier of the first matching compound). -/
def compoundMultipliers : List (String × ℚ) :=
  [("saas", mkRat 3 2), ("product management", mkRat 13 10), ("b2b", mkRat 6 5),
   ("api", mkRat 6 5), ("platform", mkRat 6 5), ("growth", mkRat 11 10),
   ("leadership", mkRat 11 10), ("strategy", mkRat 11 10),
   ("data", mkRat 11 10), ("analytics", mkRat 11 10)]

/-- `KnockoutConfig.preferred_indicators`. -/
def preferredIndicators : List String :=
  ["preferred", "plus", "bonus", "nice to have", "advantage",
   "desirable", "beneficial", "would be great", "a plus but not required"]

/-- The required-language substrings of `calculate_knockout_confidence`. -/
def requiredLanguageWords : List String := ["required", "must have", "minimum"]

/-- The preference words of `detect_years_knockout`. -/
def yearsPreferenceWords : List String := ["preferred", "nice to have", "plus"]

/-! ## Data model -/

/-- The `category` field of a keyword result (`'knockout'` / `'skill'`). -/
inductive Category where
  | knockout
  | skill
deriving DecidableEq

/-- The `knockout_type` values (`'required'` / `'preferred'`); the field
itself is `Option KnockoutType` since the source stores `None` for skills. -/
inductive KnockoutType where
  | required
  | preferred
deriving DecidableEq

/-- A keyword result dict as built by `create_keyword_result`
(`kw`, `tfidf`, `section`, `role`, `score`, `is_buzzword`, `category`,
`knockout_type`, `knockout_confidence`).  `sectionScore` models the
`section` key (a Lean keyword). -/
structure KwResult where
  kw : String
  tfidf : ℚ := 0
  sectionScore : ℚ := 0
  role : ℚ := 0
  score : ℚ := 0
  isBuzzword : Bool := false
  category : Category := .skill
  knockoutType : Option KnockoutType := none
  knockoutConfidence : ℚ := 0
deriving DecidableEq

/-- The outcome of `categorize_keyword`.  The source returns a dict whose
keys vary by branch; `create_keyword_result` reads them with
`.get('knockout_type')` (default `None`) and `.get('confidence', 0)`, so
the skill branch is the record with `none` / `0`.  The justification
strings `context`/`years_match` of the years branch are display-only and
not modelled (no property under study mentions them). -/
structure Categorization where
  category : Category
  knockoutType : Option KnockoutType := none
  confidence : ℚ := 0
  detectionMethod : String := ""
deriving DecidableEq

/-! ## Scoring (`kw_rank/core/scoring.py`) -/

/-- `calculate_base_score`: the weighted sum of the three components with
the configured weights. -/
def calculate_base_score (tfidfScore sectionScore roleScore : ℚ) : ℚ :=
  scoringTfidfWeight * tfidfScore +
  scoringSectionWeight * sectionScore +
  scoringRoleWeight * roleScore

/-- `extract_job_title`: first of the first 10 lines that is nonempty
after stripping and matches a title pattern (IGNORECASE); else the first
line unstripped (Python `split('\n')` never yields an empty list). -/
def extract_job_title (jobText : String) : String :=
  let lines := (pySplitLines jobText).take 10
  match lines.filterMap (fun line =>
      let s := pyStrip line
      if s ≠ "" ∧ reSearch jobTitlePatterns (pyLower s).data then some s else none) with
  | f :: _ => f
  | [] => match lines with
          | l :: _ => l
          | [] => ""

/-- `is_job_title_keyword`: either lowered-stripped text contains the other. -/
def is_job_title_keyword (keywordText jobTitle : String) : Bool :=
  if jobTitle = "" then false
  else
    let kl := pyStrip (pyLower keywordText)
    let jl := pyStrip (pyLower jobTitle)
    strContains jl kl || strContains kl jl

/-- `is_buzzword`: membership of the lowered, stripped text in the set. -/
def is_buzzword (keywordText : String) : Bool :=
  buzzwords.contains (pyStrip (pyLower keywordText))

/-- `calculate_compound_boost`: the first matching compound multiplier,
else a boost from the whitespace-token count. -/
def calculate_compound_boost (keywordText : String) : ℚ :=
  let wordCount := (splitWS keywordText).length
  let kl := pyLower keywordText
  match compoundMultipliers.find? (fun p => strContains kl p.1) with
  | some p => p.2
  | none =>
      if wordCount = 1 then 1
      else if wordCount = 2 then mkRat 13 10
      else if 3 ≤ wordCount then mkRat 3 2
      else 1

def is_executive_vocabulary (keywordText : String) : Bool :=
  executiveVocabulary.contains (pyStrip (pyLower keywordText))

def is_executive_buzzword (keywordText : String) : Bool :=
  executiveBuzzwords.contains (pyStrip (pyLower keywordText))

/-- `calculate_executive_adjustment`. -/
def calculate_executive_adjustment (keywordText : String) : ℚ :=
  if is_executive_vocabulary keywordText then executiveBoostFactor
  else if is_executive_buzzword keywordText then executivePenaltyFactor
  else 1

/-- `apply_enhancements`: job-title boost, compound boost, executive
adjustment, applied multiplicatively in sequence. -/
def apply_enhancements (baseScore : ℚ) (keywordText jobText : String) : ℚ :=
  let jobTitle := extract_job_title jobText
  let e1 := if jobTitle ≠ "" ∧ is_job_title_keyword keywordText jobTitle
            then baseScore * mkRat 6 5 else baseScore
  let e2 := e1 * calculate_compound_boost keywordText
  e2 * calculate_executive_adjustment keywordText

/-- `apply_buzzword_filtering`: `(None, is_buzz)` when a buzzword is
dropped, otherwise the (possibly penalized) score. -/
def apply_buzzword_filtering (enhancedScore : ℚ) (keywordText : String)
    (dropBuzz : Bool) : Option ℚ × Bool :=
  let isBuzz := is_buzzword keywordText
  if isBuzz && dropBuzz then (none, isBuzz)
  else if isBuzz then (some (enhancedScore * buzzwordPenalty), isBuzz)
  else (some enhancedScore, isBuzz)

/-- The composite score of C5: base score, then enhancements, then
buzzword filtering, for fixed keyword/job texts and drop mode. -/
def compositeScore (tfidfScore sectionScore roleScore : ℚ)
    (keywordText jobText : String) (dropBuzz : Bool) : Option ℚ :=
  (apply_buzzword_filtering
    (apply_enhancements (calculate_base_score tfidfScore sectionScore roleScore)
      keywordText jobText)
    keywordText dropBuzz).1

/-! ## Categorization (`kw_rank/core/categorization.py`) -/

/-- `is_soft_skill` (its argument is already lowercased in the source). -/
def is_soft_skill (keywordLower : String) : Bool :=
  reSearch softSkillPatterns keywordLower.data

/-- `count_pattern_matches`: how many of the patterns match. -/
def count_pattern_matches (keywordLower : String)
    (patterns : List (List (List SAtom))) : ℕ :=
  (patterns.filter (fun p => reSearch p keywordLower.data)).length

/-- `calculate_knockout_confidence`. -/
def calculate_knockout_confidence (keywordLower : String) (roleWeight : ℚ) : ℚ :=
  let hardMatches := count_pattern_matches keywordLower hardPatterns
  let mediumMatches := count_pattern_matches keywordLower mediumPatterns
  let hasYearsAndHighRole :=
    reSearch simpleYearsPattern keywordLower.data && decide (1 ≤ roleWeight)
  let hasDegreeMention := reSearch degreeMentionPattern keywordLower.data
  let hasRequiredLanguage :=
    requiredLanguageWords.any (fun w => strContains keywordLower w)
  let c1 : ℚ := if 1 ≤ hardMatches then hardPatternWeight else 0
  let c2 : ℚ := if 1 ≤ mediumMatches then mediumPatternWeight else 0
  let c3 : ℚ := if hasYearsAndHighRole then yearsHighRoleWeight else 0
  let c4 : ℚ := if hasDegreeMention ∧ 1 ≤ roleWeight then degreeHighRoleWeight else 0
  let c5 : ℚ := if hasRequiredLanguage then requiredLanguageWeight else 0
  c1 + c2 + c3 + c4 + c5

/-- `is_preferred_requirement`. -/
def is_preferred_requirement (keywordLower : String) : Bool :=
  preferredIndicators.any (fun w => strContains keywordLower w)

/-- `detect_years_knockout`, reduced to the fields the pipeline consumes:
whether a years pattern matches and the preferred/required type (the
extracted context string is display-only and not modelled). -/
def detect_years_knockout (keyword : String) : Bool × Option KnockoutType :=
  let kl := pyLower keyword
  if reSearch yearsPatterns kl.data then
    (true,
     some (if yearsPreferenceWords.any (fun w => strContains kl w)
           then KnockoutType.preferred else KnockoutType.required))
  else (false, none)

/-- `categorize_keyword` (the `score` and `tfidf_score` arguments are
unused in the source body too). -/
def categorize_keyword (keyword : String) (_score _tfidfScore : ℚ) (roleWeight : ℚ) :
    Categorization :=
  let kl := pyLower keyword
  if is_soft_skill kl then { category := .skill }
  else
    let years := detect_years_knockout keyword
    if years.1 then
      { category := .knockout, knockoutType := years.2, confidence := mkRat 4 5,
        detectionMethod := "years_based" }
    else
      let knockoutConfidence := calculate_knockout_confidence kl roleWeight
      if confidenceThreshold ≤ knockoutConfidence then
        { category := .knockout,
          knockoutType := some (if is_preferred_requirement kl
                                then .preferred else .required),
          confidence := knockoutConfidence,
          detectionMethod := "pattern_based" }
      else { category := .skill }

/-! ## Knockout enforcement

Python `list.sort(key=..., reverse=True)` and `sorted(key=...)` are
stable; `List.insertionSort r` with `r a b` = "a may come before b" is
stable in the same sense, so it models them exactly.  Python's tuple
keys compare lexicographically, modelled with `×ₗ`. -/

/-- Descending-score order (`knockouts.sort(key=lambda x: x['score'],
reverse=True)`). -/
def scoreDescLe (a b : KwResult) : Prop := b.score ≤ a.score

instance : DecidableRel scoreDescLe := fun a b => by
  unfold scoreDescLe; infer_instance

instance : IsTotal KwResult scoreDescLe :=
  ⟨fun a b => (le_total b.score a.score).imp (fun h => h) (fun h => h)⟩

instance : IsTrans KwResult scoreDescLe :=
  ⟨fun _ _ _ h1 h2 => le_trans h2 h1⟩

/-- `{k with category := 'skill', knockout_type := None,
knockout_confidence := 0}`: the reclassification applied to overflow
knockouts. -/
def reclassifyAsSkill (k : KwResult) : KwResult :=
  { k with category := .skill, knockoutType := none, knockoutConfidence := 0 }

/-- `enforce_knockout_maximum` of `kw_rank/core/categorization.py` — the
modular version imported by `kw_rank/main.py`.  Sorts the knockouts by
score (descending) only. -/
def enforce_knockout_maximum (results : List KwResult) (maxKnockouts : ℕ) :
    List KwResult :=
  let knockouts := results.filter (fun r => r.category = Category.knockout)
  let skills := results.filter (fun r => r.category = Category.skill)
  if knockouts.length ≤ maxKnockouts then results
  else
    let sorted := List.insertionSort scoreDescLe knockouts
    let kept := sorted.take maxKnockouts
    let overflow := sorted.drop maxKnockouts
    kept ++ skills ++ overflow.map reclassifyAsSkill

/-- The `type_priority` of a knockout sort key: 0 for `'required'`,
1 otherwise (`None` included). -/
def typePriority (k : KwResult) : ℕ :=
  if k.knockoutType = some KnockoutType.required then 0 else 1

/-- The legacy sort key of `services/keyword-analysis/kw_rank.py`:
the Python tuple `(type_priority, -confidence, -score)`, compared
lexicographically. -/
def legacyKey (k : KwResult) : ℕ ×ₗ (ℚ ×ₗ ℚ) :=
  toLex (typePriority k, toLex (-k.knockoutConfidence, -k.score))

/-- Ascending order of the legacy key (`knockouts.sort(key=...)`). -/
def legacyKnockoutLe (a b : KwResult) : Prop := legacyKey a ≤ legacyKey b

instance : DecidableRel legacyKnockoutLe := fun a b => by
  unfold legacyKnockoutLe; infer_instance

instance : IsTotal KwResult legacyKnockoutLe :=
  ⟨fun a b => le_total (legacyKey a) (legacyKey b)⟩

instance : IsTrans KwResult legacyKnockoutLe :=
  ⟨fun _ _ _ h1 h2 => le_trans h1 h2⟩

/-- `enforce_knockout_maximum` of the legacy monolith
`services/keyword-analysis/kw_rank.py`: identical to the modular
version except that knockouts are sorted by
`(type_priority, -confidence, -score)`. -/
def enforce_knockout_maximum_legacy (results : List KwResult)
    (maxKnockouts : ℕ) : List KwResult :=
  let knockouts := results.filter (fun r => r.category = Category.knockout)
  let skills := results.filter (fun r => r.category = Category.skill)
  if knockouts.length ≤ maxKnockouts then results
  else
    let sorted := List.insertionSort legacyKnockoutLe knockouts
    let kept := sorted.take maxKnockouts
    let overflow := sorted.drop maxKnockouts
    kept ++ skills ++ overflow.map reclassifyAsSkill

/-! ## The degree guardrail (`kw_rank/main.py`) -/

/-- The demotion branch of `apply_degree_guardrail`. -/
def demoteDegree (item : KwResult) : KwResult :=
  { item with category := .skill, knockoutType := none, knockoutConfidence := 0 }

/-- The condition of the guardrail: a knockout with `tfidf == 0.0`
whose text matches the degree regex (IGNORECASE). -/
def degreeGuardCond (item : KwResult) : Bool :=
  item.category = Category.knockout && item.tfidf = 0
    && reSearch guardrailDegreePattern (pyLower item.kw).data

/-- `apply_degree_guardrail`: demote matching knockouts, keep the rest. -/
def apply_degree_guardrail (results : List KwResult) : List KwResult :=
  results.map (fun item => if degreeGuardCond item then demoteDegree item else item)

/-! ## Selection (`kw_rank/main.py`, `select_top_results`) -/

/-- The knockout ordering of `select_top_results`: the Python tuple key
`(type_priority, -score)`, ascending. -/
def knockoutTypeScoreLe (a b : KwResult) : Prop :=
  toLex (typePriority a, -a.score) ≤ toLex (typePriority b, -b.score)

instance : DecidableRel knockoutTypeScoreLe := fun a b => by
  unfold knockoutTypeScoreLe; infer_instance

instance : IsTotal KwResult knockoutTypeScoreLe :=
  ⟨fun a b => le_total (toLex (typePriority a, -a.score)) (toLex (typePriority b, -b.score))⟩

instance : IsTrans KwResult knockoutTypeScoreLe :=
  ⟨fun _ _ _ h1 h2 => le_trans h1 h2⟩

/-- `select_top_results`: all knockouts sorted by `(type_priority,
-score)`, and the trimmed skills sorted by descending score, cut to the
top `top`. -/
def select_top_results (knockoutKeywords trimmedSkills : List KwResult)
    (top : ℕ) : List KwResult × List KwResult :=
  let topSkills := (List.insertionSort scoreDescLe trimmedSkills).take top
  let knockoutRequirements := List.insertionSort knockoutTypeScoreLe knockoutKeywords
  (knockoutRequirements, topSkills)

/-! ## Clustering (`kw_rank/core/clustering.py`)

The embedding model and `AgglomerativeClustering` are external: their
combined output is the assignment of a cluster label to each keyword,
passed here as `labels` (in the source, `cluster_labels[i]` is the label
of `ranked_keywords[i]`). -/

/-- `is_experience_keyword`. -/
def is_experience_keyword (keywordText : String) : Bool :=
  experiencePatterns.any (fun p => searchFrom p none (pyLower keywordText).data)

/-- The sort key of `select_canonical_keyword`: the Python tuple
`(is_exp, score)` (with `False < True`), sorted descending. -/
def expRank (k : KwResult) : ℕ := if is_experience_keyword k.kw then 1 else 0

/-- Descending `(is_exp, score)`: `a` may precede `b` iff `b`'s key is
not larger. -/
def canonicalPriorityGe (a b : KwResult) : Prop :=
  toLex (expRank b, b.score) ≤ toLex (expRank a, a.score)

instance : DecidableRel canonicalPriorityGe := fun a b => by
  unfold canonicalPriorityGe; infer_instance

instance : IsTotal KwResult canonicalPriorityGe :=
  ⟨fun a b => (le_total (toLex (expRank b, b.score)) (toLex (expRank a, a.score))).imp
    (fun h => h) (fun h => h)⟩

instance : IsTrans KwResult canonicalPriorityGe :=
  ⟨fun _ _ _ h1 h2 => le_trans h2 h1⟩

/-- A canonical keyword: the representative result plus the `aliases`
key added by `create_canonical_keywords`. -/
structure Canonical where
  base : KwResult
  aliases : List String
deriving DecidableEq

/-- One cluster's canonical entry: `select_canonical_keyword` sorts the
cluster in place (descending `(is_exp, score)`, stable) and takes the
head; `create_canonical_keywords` then collects as aliases the texts of
the sorted cluster different from the canonical text. -/
def create_canonical (cluster : List KwResult) : Option Canonical :=
  match List.insertionSort canonicalPriorityGe cluster with
  | [] => none
  | c :: rest =>
      some { base := c,
             aliases := ((c :: rest).filter (fun k => k.kw ≠ c.kw)).map (·.kw) }

/-- The keys of a Python dict built by insertion: first occurrences in
order (`group_keywords_by_cluster`). -/
def firstKeys : List ℕ → List ℕ
  | [] => []
  | l :: ls => l :: firstKeys (ls.filter (fun x => x ≠ l))
termination_by ls => ls.length
decreasing_by
  simp_wf
  exact Nat.lt_succ_of_le (List.length_filter_le _ _)

/-- The members of the cluster labelled `l`, in input order. -/
def membersOf (pairs : List (KwResult × ℕ)) (l : ℕ) : List KwResult :=
  (pairs.filter (fun p => p.2 = l)).map (·.1)

/-- `group_keywords_by_cluster` followed by `create_canonical_keywords`:
one canonical keyword per distinct label, in first-occurrence order. -/
def cluster_canonicals (ranked : List KwResult) (labels : List ℕ) :
    List Canonical :=
  let pairs := ranked.zip labels
  (firstKeys (pairs.map (·.2))).filterMap (fun l => create_canonical (membersOf pairs l))

/-- In how many canonical entries is `t` the representative's text? -/
def repCount (cs : List Canonical) (t : String) : ℕ :=
  (cs.filter (fun c => c.base.kw = t)).length

/-- How many alias slots across all canonical entries hold `t`? -/
def aliasCount (cs : List Canonical) (t : String) : ℕ :=
  (cs.map (fun c => c.aliases.count t)).sum

/-! ## Trimming (`trim_by_median`) -/

/-- `np.median`: middle of the ascending sort (mean of the two middles
for even length).  The empty case is unreachable where the pipeline
calls it (`trim_by_median` only computes it for nonempty input). -/
def npMedian (l : List ℚ) : ℚ :=
  let s := List.insertionSort (fun a b : ℚ => a ≤ b) l
  if s.length % 2 = 1 then s.getD (s.length / 2) 0
  else (s.getD (s.length / 2 - 1) 0 + s.getD (s.length / 2) 0) / 2

/-- `threshold = median_score * median_multiplier`. -/
def trimThreshold (canonicalKeywords : List KwResult) (medianMultiplier : ℚ) : ℚ :=
  npMedian (canonicalKeywords.map (·.score)) * medianMultiplier

/-- `trim_by_median` (modular version, `kw_rank/core/clustering.py`):
no-op at or below the floor; keep scores `>= threshold`; if fewer than
the floor remain, keep the top floor by descending score. -/
def trim_by_median (canonicalKeywords : List KwResult)
    (medianMultiplier : ℚ) (minKeywords : ℕ) : List KwResult :=
  if canonicalKeywords.length ≤ minKeywords then canonicalKeywords
  else
    let threshold := trimThreshold canonicalKeywords medianMultiplier
    let aboveThreshold := canonicalKeywords.filter (fun k => threshold ≤ k.score)
    if aboveThreshold.length < minKeywords then
      (List.insertionSort scoreDescLe canonicalKeywords).take minKeywords
    else aboveThreshold

/-! ## Injection points (`kw_rank/core/injection.py`)

Resume parsing (`extract_matchable_content`) produces a list of content
items; the embedding model and `cosine_similarity` are external, entering
as `cosOf`: for a keyword text, `some sims` is a successful similarity
row over the valid content, `none` a raised exception. -/

/-- One matchable content unit of the resume. -/
structure ContentItem where
  text : String
  location : String
  context : String
  sectionName : String
deriving DecidableEq

/-- An injection-point annotation as built by `create_injection_point`. -/
structure InjectionPoint where
  text : String
  fullText : String
  similarity : ℚ
  location : String
  context : String
  sectionName : String
  icon : String
  action : String
deriving DecidableEq

/-- Python `round(x, 3)` modelled as rounding `x*1000` to the nearest
integer (`round` rounds halves up where Python rounds them to even; no
value under study sits on a half). -/
def qRound3 (q : ℚ) : ℚ := (round (q * 1000) : ℤ) / 1000

/-- `classify_match`: (icon, action) from containment, word overlap and
the similarity thresholds. -/
def classify_match (contentText keywordText : String) (similarityScore : ℚ) :
    String × String :=
  let contentLower := pyLower contentText
  let keywordLower := pyLower keywordText
  let keywordWords := (splitWS keywordLower).filter
    (fun w => minWordLength ≤ pyLen w)
  if strContains contentLower keywordLower then ("✅", "already contains keyword")
  else if keywordWords ≠ [] ∧
      7 * keywordWords.length ≤
        10 * (keywordWords.filter (fun w => strContains contentLower w)).length then
    ("✅", "already contains keyword")
  else if highSimilarityThreshold ≤ similarityScore then
    ("✅", "already contains keyword")
  else if similarityThreshold ≤ similarityScore then
    ("🟠", "may need short phrase")
  else ("💡", "suggest adding new bullet")

/-- `create_injection_point`: truncate for display, round the
similarity, classify. -/
def create_injection_point (contentItem : ContentItem) (similarity : ℚ)
    (keywordText : String) : InjectionPoint :=
  let ia := classify_match contentItem.text keywordText similarity
  let displayText := if 60 < pyLen contentItem.text
                     then pyAppend (pyTake contentItem.text 57) "..." else contentItem.text
  { text := displayText, fullText := contentItem.text,
    similarity := qRound3 similarity, location := contentItem.location,
    context := contentItem.context, sectionName := contentItem.sectionName,
    icon := ia.1, action := ia.2 }

/-- `compute_keyword_similarities`: zeros for a blank keyword; the
cosine row on success; zeros when the computation raises.  (The
`np.nan_to_num` cleanup has no counterpart over `ℚ`, which has no NaN
or infinities.) -/
def compute_keyword_similarities (keywordText : String) (n : ℕ)
    (cosResult : Option (List ℚ)) : List ℚ :=
  if pyStrip keywordText = "" then List.replicate n 0
  else
    match cosResult with
    | some sims => sims
    | none => List.replicate n 0

/-- `np.argsort(similarities)[-3:][::-1]`: indices sorted by ascending
value, last three, reversed.  (Ties are ordered by index here; numpy's
default sort leaves tie order unspecified, and no property under study
depends on it.) -/
def argsortTop3 (sims : List ℚ) : List ℕ :=
  let idxs := List.insertionSort
    (fun i j => toLex (sims.getD i 0, i) ≤ toLex (sims.getD j 0, j))
    (List.range sims.length)
  (idxs.drop (idxs.length - 3)).reverse

/-- The per-keyword body of the loop in `find_injection_points`. -/
def processOneKeyword (valid : List ContentItem)
    (cosOf : String → Option (List ℚ)) (k : KwResult) :
    KwResult × List InjectionPoint :=
  let sims := compute_keyword_similarities k.kw valid.length (cosOf k.kw)
  let tops := argsortTop3 sims
  let pts := tops.filterMap (fun idx =>
    if h : idx < valid.length then
      some (create_injection_point (valid.get ⟨idx, h⟩) (sims.getD idx 0) k.kw)
    else none)
  (k, pts)

/-- `find_injection_points`: keywords returned unmodified (`none`
injection lists) when no content or no valid content; otherwise each
keyword gets its injection points. -/
def find_injection_points (content : List ContentItem)
    (keywords : List KwResult) (cosOf : String → Option (List ℚ)) :
    List (KwResult × Option (List InjectionPoint)) :=
  if content = [] then keywords.map (fun k => (k, none))
  else
    let valid := content.filter (fun c => pyStrip c.text ≠ "")
    if valid = [] then keywords.map (fun k => (k, none))
    else keywords.map (fun k =>
      let p := processOneKeyword valid cosOf k
      (p.1, some p.2))

/-! ## Derived definitions used by the statements -/

/-- The overflow knockouts of `enforce_knockout_maximum`: those dropped
from the score-sorted knockout list after the first `maxKnockouts`
(empty when the limit is not exceeded). -/
def knockoutOverflow (results : List KwResult) (maxKnockouts : ℕ) : List KwResult :=
  let knockouts := results.filter (fun r => r.category = Category.knockout)
  if knockouts.length ≤ maxKnockouts then []
  else (List.insertionSort scoreDescLe knockouts).drop maxKnockouts

/-- The multiplicative factor applied by `apply_enhancements` (job-title
boost, compound boost, executive adjustment). -/
def enhancementFactor (keywordText jobText : String) : ℚ :=
  (if extract_job_title jobText ≠ "" ∧
      is_job_title_keyword keywordText (extract_job_title jobText)
   then mkRat 6 5 else 1)
  * calculate_compound_boost keywordText
  * calculate_executive_adjustment keywordText

/-- Pointwise order on the optional score returned by
`apply_buzzword_filtering`: same shape, ordered values. -/
def optionScoreLe : Option ℚ → Option ℚ → Prop
  | none, none => True
  | some a, some b => a ≤ b
  | _, _ => False

/-! ## Concrete inputs used by counterexamples and witnesses -/

def exTrimEntry (q : ℚ) : KwResult := { kw := "skill", score := q }

/-- 21 canonical skills: eleven scoring 10 and ten scoring 12.  The
median score is 10, so the default threshold is 10 * 1.2 = 12 — which
ten entries meet exactly. -/
def exTrimList : List KwResult :=
  List.replicate 11 (exTrimEntry 10) ++ List.replicate 10 (exTrimEntry 12)

def exPreferredKnockout : KwResult :=
  { kw := "mba preferred"
    category := .knockout
    knockoutType := some KnockoutType.preferred
    knockoutConfidence := mkRat 9 10
    score := 10 }

def exRequiredKnockout : KwResult :=
  { kw := "bachelor degree"
    category := .knockout
    knockoutType := some KnockoutType.required
    knockoutConfidence := mkRat 4 5
    score := 5 }

def dupSkill : KwResult := { kw := "python" }

def distinctSkillA : KwResult := { kw := "python" }

def distinctSkillB : KwResult := { kw := "golang" }

def exResumeContent : ContentItem :=
  { text := "Led product teams across three launches"
    location := "work[0].highlights[0]"
    context := "Acme - Director of Product"
    sectionName := "highlights" }

def exFailKw : KwResult := { kw := "budget ownership" }

def exOkKw : KwResult := { kw := "team scaling" }

/-- The cosine-similarity collaborator of the counterexample: it raises
for one keyword and succeeds for every other. -/
def exCosOf : String → Option (List ℚ) :=
  fun s => if s = "budget ownership" then none else some [mkRat 9 10]

/-! ## Supporting lemmas -/

lemma filter_knockout_of_parts (sorted skills0 : List KwResult) (maxK : ℕ)
    (hs : ∀ a ∈ sorted, a.category = Category.knockout)
    (hsk : ∀ a ∈ skills0, a.category = Category.skill) :
    (sorted.take maxK ++ skills0 ++ (sorted.drop maxK).map reclassifyAsSkill).filter
      (fun x => x.category = Category.knockout) = sorted.take maxK := by
  rw [List.filter_append, List.filter_append]
  have h1 : (sorted.take maxK).filter (fun x => x.category = Category.knockout)
      = sorted.take maxK := by
    rw [List.filter_eq_self]
    intro a ha
    simp [hs a (List.take_subset _ _ ha)]
  have h2 : skills0.filter (fun x => x.category = Category.knockout) = [] := by
    rw [List.filter_eq_nil_iff]
    intro a ha
    simp [hsk a ha]
  have h3 : ((sorted.drop maxK).map reclassifyAsSkill).filter
      (fun x => x.category = Category.knockout) = [] := by
    rw [List.filter_eq_nil_iff]
    intro a ha
    obtain ⟨b, _, rfl⟩ := List.mem_map.1 ha
    simp [reclassifyAsSkill]
  rw [h1, h2, h3]
  simp

lemma apply_enhancements_eq (b : ℚ) (kw job : String) :
    apply_enhancements b kw job = b * enhancementFactor kw job := by
  unfold apply_enhancements enhancementFactor
  by_cases h : extract_job_title job ≠ "" ∧
      is_job_title_keyword kw (extract_job_title job)
  · simp only [if_pos h]
    ring
  · simp only [if_neg h]
    ring

lemma compound_boost_pos (kw : String) : 0 < calculate_compound_boost kw := by
  unfold calculate_compound_boost
  have hall : ∀ p ∈ compoundMultipliers, (0:ℚ) < p.2 := by decide
  rcases hfind : compoundMultipliers.find?
      (fun p => strContains (pyLower kw) p.1) with _ | p
  · simp only [hfind]
    split
    · decide
    · split
      · decide
      · split
        · decide
        · decide
  · simp only [hfind]
    exact hall p (List.mem_of_find?_eq_some hfind)

lemma executive_adjustment_pos (kw : String) :
    0 < calculate_executive_adjustment kw := by
  unfold calculate_executive_adjustment
  split
  · decide
  · split
    · decide
    · decide

lemma enhancementFactor_pos (kw job : String) : 0 < enhancementFactor kw job := by
  unfold enhancementFactor
  refine mul_pos (mul_pos ?_ (compound_boost_pos kw)) (executive_adjustment_pos kw)
  split
  · decide
  · decide

lemma base_score_mono {t1 t2 s1 s2 r1 r2 : ℚ} (ht : t1 ≤ t2) (hs : s1 ≤ s2)
    (hr : r1 ≤ r2) :
    calculate_base_score t1 s1 r1 ≤ calculate_base_score t2 s2 r2 := by
  unfold calculate_base_score
  have w1 : (0:ℚ) ≤ scoringTfidfWeight := by decide
  have w2 : (0:ℚ) ≤ scoringSectionWeight := by decide
  have w3 : (0:ℚ) ≤ scoringRoleWeight := by decide
  gcongr

lemma getD_replicate_zero (n i : ℕ) : (List.replicate n (0:ℚ)).getD i 0 = 0 := by
  induction n generalizing i with
  | zero => simp
  | succ m ih =>
      cases i with
      | zero => simp
      | succ j =>
          simp only [List.replicate_succ, List.getD_cons_succ]
          exact ih j

lemma qRound3_zero : qRound3 0 = 0 := by
  unfold qRound3
  norm_num

lemma filterMap_dite_all {β : Type} (n : ℕ) (f : (i : ℕ) → i < n → β) :
    ∀ l : List ℕ, (∀ i ∈ l, i < n) →
      (l.filterMap (fun i => if h : i < n then some (f i h) else none)).length
        = l.length
      ∧ ∀ b ∈ l.filterMap (fun i => if h : i < n then some (f i h) else none),
          ∃ i, ∃ h : i < n, i ∈ l ∧ b = f i h := by
  intro l
  induction l with
  | nil => intro _; exact ⟨rfl, by simp⟩
  | cons x xs ih =>
      intro hall
      have hx : x < n := hall x (List.mem_cons_self x xs)
      obtain ⟨ihl, ihm⟩ := ih (fun i hi => hall i (List.mem_cons_of_mem _ hi))
      constructor
      · simp only [List.filterMap_cons, dif_pos hx, List.length_cons, ihl]
      · intro b hb
        simp only [List.filterMap_cons, dif_pos hx, List.mem_cons] at hb
        rcases hb with hb | hb
        · exact ⟨x, hx, List.mem_cons_self x xs, hb⟩
        · obtain ⟨i, hi, him, rfl⟩ := ihm b hb
          exact ⟨i, hi, List.mem_cons_of_mem _ him, rfl⟩

lemma firstKeys_subset : ∀ (L : List ℕ), ∀ x ∈ firstKeys L, x ∈ L := by
  intro L
  induction L using firstKeys.induct with
  | case1 =>
      intro x hx
      rw [firstKeys] at hx
      cases hx
  | case2 l ls ih =>
      intro x hx
      rw [firstKeys] at hx
      rcases List.mem_cons.1 hx with h | h
      · exact h ▸ List.mem_cons_self _ _
      · exact List.mem_cons_of_mem _ (List.mem_of_mem_filter (ih x h))

/-- The clusters read off a label assignment partition the keyword list:
flattening the per-label member lists (labels in first-occurrence order)
is a permutation of the keywords. -/
lemma partition_perm :
    ∀ (pairs : List (KwResult × ℕ)),
      ((firstKeys (pairs.map (·.2))).map (fun l => membersOf pairs l)).flatten.Perm
        (pairs.map (·.1)) := by
  have main : ∀ (n : ℕ) (pairs : List (KwResult × ℕ)), pairs.length = n →
      ((firstKeys (pairs.map (·.2))).map (fun l => membersOf pairs l)).flatten.Perm
        (pairs.map (·.1)) := by
    intro n
    induction n using Nat.strong_induction_on with
    | _ n ih =>
        intro pairs hn
        cases pairs with
        | nil =>
            rw [List.map_nil, firstKeys]
            exact List.Perm.refl _
        | cons p rest =>
            have e2 : (rest.map (·.2)).filter (fun x => x ≠ p.2)
                = (rest.filter (fun q => q.2 ≠ p.2)).map (·.2) := by
              rw [List.filter_map]
              rfl
            have e3 : membersOf (p :: rest) p.2
                = p.1 :: (rest.filter (fun q => q.2 = p.2)).map (·.1) := by
              unfold membersOf
              rw [List.filter_cons_of_pos (by simp)]
              rfl
            have e4 : ∀ l ∈ firstKeys ((rest.filter (fun q => q.2 ≠ p.2)).map (·.2)),
                membersOf (p :: rest) l
                  = membersOf (rest.filter (fun q => q.2 ≠ p.2)) l := by
              intro l hl
              have hlne : l ≠ p.2 := by
                have hsub := firstKeys_subset _ l hl
                obtain ⟨q, hq, rfl⟩ := List.mem_map.1 hsub
                exact of_decide_eq_true (List.mem_filter.1 hq).2
              unfold membersOf
              congr 1
              rw [List.filter_cons_of_neg
                (by simp only [decide_eq_true_eq]; exact fun h => hlne h.symm)]
              rw [List.filter_filter]
              refine List.filter_congr ?_
              intro q _
              by_cases hq : q.2 = l
              · simp [hq, hlne]
              · simp [hq]
            have hlen : (rest.filter (fun q => q.2 ≠ p.2)).length < n := by
              have := List.length_filter_le
                (fun q : KwResult × ℕ => decide (q.2 ≠ p.2)) rest
              simp only [List.length_cons] at hn
              omega
            have ihr := ih _ hlen (rest.filter (fun q => q.2 ≠ p.2)) rfl
            show ((firstKeys (p.2 :: rest.map (·.2))).map
              (fun l => membersOf (p :: rest) l)).flatten.Perm (p.1 :: rest.map (·.1))
            rw [firstKeys, e2, List.map_cons, List.flatten_cons, e3,
              List.map_congr_left e4, List.cons_append]
            refine List.Perm.cons p.1 ?_
            refine List.Perm.trans (List.Perm.append_left _ ihr) ?_
            rw [← List.map_append]
            refine List.Perm.map _ ?_
            have hc : rest.filter (fun q => q.2 ≠ p.2)
                = rest.filter (fun q => !(decide (q.2 = p.2))) := by
              refine List.filter_congr ?_
              intro q _
              simp [decide_not]
            rw [hc]
            exact List.filter_append_perm _ rest
  intro pairs
  exact main pairs.length pairs rfl

/-- For a nonempty cluster with pairwise-distinct texts, the canonical's
text together with its aliases is a permutation of the member texts. -/
lemma create_canonical_texts (cluster : List KwResult)
    (hne : cluster ≠ []) (hnd : (cluster.map (·.kw)).Nodup) :
    ∃ cn : Canonical, create_canonical cluster = some cn ∧
      (cn.base.kw :: cn.aliases).Perm (cluster.map (·.kw)) := by
  have hperm := List.perm_insertionSort canonicalPriorityGe cluster
  unfold create_canonical
  rcases hs : List.insertionSort canonicalPriorityGe cluster with _ | ⟨c, rest⟩
  · rw [hs] at hperm
    exact absurd (List.Perm.symm hperm).eq_nil hne
  · rw [hs] at hperm
    refine ⟨_, rfl, ?_⟩
    have hmapperm : ((c :: rest).map (·.kw)).Perm (cluster.map (·.kw)) :=
      hperm.map _
    have hnd2 : ((c :: rest).map (·.kw)).Nodup := (hmapperm.symm).nodup hnd
    have hnotin : c.kw ∉ rest.map (·.kw) := by
      rw [List.map_cons] at hnd2
      exact (List.nodup_cons.1 hnd2).1
    have hfilter : (c :: rest).filter (fun k => k.kw ≠ c.kw) = rest := by
      rw [List.filter_cons_of_neg (by simp)]
      refine List.filter_eq_self.2 ?_
      intro a ha
      simp only [ne_eq, decide_eq_true_eq]
      intro hak
      exact hnotin (List.mem_map.2 ⟨a, ha, hak⟩)
    show ((c.kw :: ((c :: rest).filter (fun k => k.kw ≠ c.kw)).map (·.kw))).Perm
      (cluster.map (·.kw))
    rw [hfilter]
    exact hmapperm

lemma create_canonical_no_self (cluster : List KwResult) (cn : Canonical)
    (h : create_canonical cluster = some cn) : cn.base.kw ∉ cn.aliases := by
  unfold create_canonical at h
  rcases hs : List.insertionSort canonicalPriorityGe cluster with _ | ⟨c, rest⟩ <;>
    rw [hs] at h
  · cases h
  · cases h
    intro hmem
    obtain ⟨x, hx, hxk⟩ := List.mem_map.1 hmem
    have := List.of_mem_filter hx
    rw [hxk] at this
    simp at this

lemma rep_alias_count (cs : List Canonical) (t : String) :
    repCount cs t + aliasCount cs t
      = ((cs.map (fun c => c.base.kw :: c.aliases)).flatten).count t := by
  induction cs with
  | nil => rfl
  | cons c cs ih =>
      unfold repCount aliasCount at *
      simp only [List.map_cons, List.flatten_cons, List.count_append, List.sum_cons,
        List.count_cons]
      by_cases hc : c.base.kw = t
      · rw [List.filter_cons_of_pos (by simp [hc]), List.length_cons]
        simp only [hc, beq_self_eq_true, if_pos]
        omega
      · rw [List.filter_cons_of_neg (by simp [hc])]
        have hb : (c.base.kw == t) = false := by simp [hc]
        simp only [hb, Bool.false_eq_true, if_false]
        omega

lemma canonicals_texts_perm (pairs : List (KwResult × ℕ)) :
    ∀ K : List ℕ,
      (∀ l ∈ K, membersOf pairs l ≠ [] ∧ ((membersOf pairs l).map (·.kw)).Nodup) →
      (((K.filterMap (fun l => create_canonical (membersOf pairs l))).map
          (fun c => c.base.kw :: c.aliases)).flatten).Perm
        ((K.map (fun l => membersOf pairs l)).flatten.map (·.kw)) := by
  intro K
  induction K with
  | nil => intro _; exact List.Perm.refl _
  | cons l K ih =>
      intro hall
      obtain ⟨hne, hnd⟩ := hall l (List.mem_cons_self _ _)
      obtain ⟨cn, hcn, hperm⟩ := create_canonical_texts _ hne hnd
      have ihr := ih (fun x hx => hall x (List.mem_cons_of_mem _ hx))
      simp only [List.filterMap_cons, hcn, List.map_cons, List.flatten_cons,
        List.map_append]
      exact List.Perm.append hperm ihr

/-! ## The claims -/

/-- Claim C1 (amended).  When the knockout count exceeds the maximum, the
legacy monolith's `enforce_knockout_maximum` keeps exactly the first
`max` knockouts of the order (required before preferred, descending
confidence, descending score), while the modular
`enforce_knockout_maximum` that the pipeline imports keeps exactly the
first `max` of the descending-score order alone. -/
theorem claim1_enforcement_sort (results : List KwResult) (maxKnockouts : ℕ)
    (h : maxKnockouts <
      (results.filter (fun r => r.category = Category.knockout)).length) :
    (∃ s : List KwResult,
       s.Perm (results.filter (fun r => r.category = Category.knockout)) ∧
       s.Sorted legacyKnockoutLe ∧
       (enforce_knockout_maximum_legacy results maxKnockouts).filter
         (fun r => r.category = Category.knockout) = s.take maxKnockouts)
  ∧ (∃ s : List KwResult,
       s.Perm (results.filter (fun r => r.category = Category.knockout)) ∧
       s.Sorted scoreDescLe ∧
       (enforce_knockout_maximum results maxKnockouts).filter
         (fun r => r.category = Category.knockout) = s.take maxKnockouts) := by
  constructor
  · refine ⟨List.insertionSort legacyKnockoutLe
      (results.filter (fun r => r.category = Category.knockout)),
      List.perm_insertionSort _ _, List.sorted_insertionSort _ _, ?_⟩
    unfold enforce_knockout_maximum_legacy
    simp only [if_neg (not_le.2 h)]
    refine filter_knockout_of_parts _ _ _ ?_ ?_
    · intro a ha
      have := (List.mem_insertionSort _).1 ha
      exact of_decide_eq_true (List.mem_filter.1 this).2
    · intro a ha
      exact of_decide_eq_true (List.mem_filter.1 ha).2
  · refine ⟨List.insertionSort scoreDescLe
      (results.filter (fun r => r.category = Category.knockout)),
      List.perm_insertionSort _ _, List.sorted_insertionSort _ _, ?_⟩
    unfold enforce_knockout_maximum
    simp only [if_neg (not_le.2 h)]
    refine filter_knockout_of_parts _ _ _ ?_ ?_
    · intro a ha
      have := (List.mem_insertionSort _).1 ha
      exact of_decide_eq_true (List.mem_filter.1 this).2
    · intro a ha
      exact of_decide_eq_true (List.mem_filter.1 ha).2

/-- Claim C1, counterexample to the claim as stated: with maximum 1, the
pipeline's `enforce_knockout_maximum` keeps the *preferred* knockout
with the higher score, whereas the claimed order (required first, then
confidence, then score) would keep the required one. -/
theorem claim1_enforcement_sort_counterexample :
    (enforce_knockout_maximum [exPreferredKnockout, exRequiredKnockout] 1).filter
      (fun r => r.category = Category.knockout) = [exPreferredKnockout]
  ∧ (List.insertionSort legacyKnockoutLe
      [exPreferredKnockout, exRequiredKnockout]).take 1 = [exRequiredKnockout]
  ∧ exPreferredKnockout ≠ exRequiredKnockout := by decide

/-- Claim C1, witness: the amended theorem at a concrete two-knockout
input with maximum 1. -/
theorem claim1_enforcement_sort_witness :
    (∃ s : List KwResult,
       s.Perm ([exPreferredKnockout, exRequiredKnockout].filter
         (fun r => r.category = Category.knockout)) ∧
       s.Sorted legacyKnockoutLe ∧
       (enforce_knockout_maximum_legacy
           [exPreferredKnockout, exRequiredKnockout] 1).filter
         (fun r => r.category = Category.knockout) = s.take 1)
  ∧ (∃ s : List KwResult,
       s.Perm ([exPreferredKnockout, exRequiredKnockout].filter
         (fun r => r.category = Category.knockout)) ∧
       s.Sorted scoreDescLe ∧
       (enforce_knockout_maximum [exPreferredKnockout, exRequiredKnockout] 1).filter
         (fun r => r.category = Category.knockout) = s.take 1) :=
  claim1_enforcement_sort [exPreferredKnockout, exRequiredKnockout] 1 (by decide)

/-- Claim C2.  After `apply_degree_guardrail`, no entry matching the
degree pattern with tfidf exactly 0 is still a knockout; position by
position, matching knockouts become the demoted record (skill, type
`None`, confidence 0, score and text unchanged) and all other entries
pass through unchanged; hence no such keyword appears in the final
knockout output of `select_top_results`. -/
theorem claim2_degree_guardrail (results : List KwResult) :
    ((apply_degree_guardrail results).length = results.length)
  ∧ (∀ e ∈ apply_degree_guardrail results,
      e.category = Category.knockout →
      ¬(reSearch guardrailDegreePattern (pyLower e.kw).data = true ∧ e.tfidf = 0))
  ∧ (∀ i : ℕ, ∀ e : KwResult, results[i]? = some e →
      (apply_degree_guardrail results)[i]?
        = some (if degreeGuardCond e then demoteDegree e else e))
  ∧ (∀ e : KwResult, (demoteDegree e).category = Category.skill ∧
      (demoteDegree e).knockoutType = none ∧
      (demoteDegree e).knockoutConfidence = 0 ∧
      (demoteDegree e).score = e.score ∧ (demoteDegree e).kw = e.kw)
  ∧ (∀ (ts : List KwResult) (top : ℕ),
      ∀ e ∈ (select_top_results
        ((apply_degree_guardrail results).filter
          (fun r => r.category = Category.knockout)) ts top).1,
      ¬(reSearch guardrailDegreePattern (pyLower e.kw).data = true ∧ e.tfidf = 0)) := by
  have key : ∀ e ∈ apply_degree_guardrail results,
      e.category = Category.knockout →
      ¬(reSearch guardrailDegreePattern (pyLower e.kw).data = true ∧ e.tfidf = 0) := by
    intro e he hk hcond
    obtain ⟨a, _, rfl⟩ := List.mem_map.1 he
    by_cases hg : degreeGuardCond a
    · simp only [if_pos hg] at hk hcond
      simp [demoteDegree] at hk
    · simp only [if_neg hg] at hk hcond
      unfold degreeGuardCond at hg
      simp [hk, hcond.1, hcond.2] at hg
  refine ⟨List.length_map _ _, key, ?_, ?_, ?_⟩
  · intro i e he
    unfold apply_degree_guardrail
    rw [List.getElem?_map, he]
    rfl
  · intro e
    exact ⟨rfl, rfl, rfl, rfl, rfl⟩
  · intro ts top e he
    have h1 : e ∈ (apply_degree_guardrail results).filter
        (fun r => r.category = Category.knockout) := by
      unfold select_top_results at he
      exact (List.mem_insertionSort _).1 he
    have h2 := List.mem_filter.1 h1
    exact key e h2.1 (of_decide_eq_true h2.2)

/-- Claim C3.  `enforce_knockout_maximum` leaves at most `max` knockouts,
and every overflow entry reappears reclassified with its score
unchanged, confidence 0, type `None` and category skill. -/
theorem claim3_knockout_cap (results : List KwResult) (maxKnockouts : ℕ) :
    ((enforce_knockout_maximum results maxKnockouts).countP
        (fun r => r.category = Category.knockout) ≤ maxKnockouts)
    ∧ (∀ e ∈ knockoutOverflow results maxKnockouts,
        reclassifyAsSkill e ∈ enforce_knockout_maximum results maxKnockouts ∧
        (reclassifyAsSkill e).score = e.score ∧
        (reclassifyAsSkill e).knockoutConfidence = 0 ∧
        (reclassifyAsSkill e).knockoutType = none ∧
        (reclassifyAsSkill e).category = Category.skill) := by
  constructor
  · unfold enforce_knockout_maximum
    by_cases h : (results.filter
        (fun r => r.category = Category.knockout)).length ≤ maxKnockouts
    · simp only [if_pos h]
      rw [List.countP_eq_length_filter]
      exact h
    · simp only [if_neg h]
      rw [List.countP_append, List.countP_append]
      have hkept : (((List.insertionSort scoreDescLe
          (results.filter (fun r => r.category = Category.knockout))).take
            maxKnockouts).countP (fun r => r.category = Category.knockout))
          ≤ maxKnockouts := by
        calc _ ≤ ((List.insertionSort scoreDescLe
            (results.filter (fun r => r.category = Category.knockout))).take
              maxKnockouts).length := List.countP_le_length _
        _ ≤ maxKnockouts := by
            rw [List.length_take]
            exact min_le_left _ _
      have hskills : ((results.filter (fun r => r.category = Category.skill)).countP
          (fun r => r.category = Category.knockout)) = 0 := by
        rw [List.countP_eq_zero]
        intro a ha
        have := (List.mem_filter.1 ha).2
        simp at this ⊢
        rw [this]
        intro hc
        cases hc
      have hover : (((List.insertionSort scoreDescLe
          (results.filter (fun r => r.category = Category.knockout))).drop
            maxKnockouts).map reclassifyAsSkill).countP
          (fun r => r.category = Category.knockout) = 0 := by
        rw [List.countP_eq_zero]
        intro a ha
        obtain ⟨b, _, rfl⟩ := List.mem_map.1 ha
        simp [reclassifyAsSkill]
      omega
  · intro e he
    refine ⟨?_, rfl, rfl, rfl, rfl⟩
    unfold knockoutOverflow at he
    unfold enforce_knockout_maximum
    by_cases h : (results.filter
        (fun r => r.category = Category.knockout)).length ≤ maxKnockouts
    · simp only [if_pos h] at he
      cases he
    · simp only [if_neg h] at he ⊢
      exact List.mem_append_right _ (List.mem_map.2 ⟨e, he, rfl⟩)

/-- Claim C4 (amended).  When the input keyword texts are pairwise
distinct, clustering is a true partition: each input keyword is counted
exactly once over all representatives and alias lists, and no canonical
entry lists its own text among its aliases (the latter holds for every
input). -/
theorem claim4_cluster_partition (ranked : List KwResult) (labels : List ℕ)
    (hlen : labels.length = ranked.length)
    (hnd : (ranked.map (·.kw)).Nodup) :
    (∀ k ∈ ranked,
      repCount (cluster_canonicals ranked labels) k.kw
        + aliasCount (cluster_canonicals ranked labels) k.kw = 1)
  ∧ (∀ c ∈ cluster_canonicals ranked labels, c.base.kw ∉ c.aliases) := by
  constructor
  · intro k hk
    have hfst : (ranked.zip labels).map (·.1) = ranked :=
      List.map_fst_zip _ _ (le_of_eq hlen.symm)
    have hprops : ∀ l ∈ firstKeys ((ranked.zip labels).map (·.2)),
        membersOf (ranked.zip labels) l ≠ []
        ∧ ((membersOf (ranked.zip labels) l).map (·.kw)).Nodup := by
      intro l hl
      constructor
      · have := firstKeys_subset _ l hl
        obtain ⟨q, hq, rfl⟩ := List.mem_map.1 this
        have : q.1 ∈ membersOf (ranked.zip labels) q.2 := by
          unfold membersOf
          exact List.mem_map.2 ⟨q, List.mem_filter.2 ⟨hq, by simp⟩, rfl⟩
        exact List.ne_nil_of_mem this
      · have hsub : List.Sublist (membersOf (ranked.zip labels) l)
            ((ranked.zip labels).map (·.1)) :=
          List.Sublist.map _ (List.filter_sublist _)
        rw [hfst] at hsub
        exact List.Nodup.sublist (List.Sublist.map _ hsub) hnd
    have h1 := canonicals_texts_perm (ranked.zip labels)
      (firstKeys ((ranked.zip labels).map (·.2))) hprops
    have h2 := (partition_perm (ranked.zip labels)).map (·.kw)
    rw [hfst] at h2
    unfold cluster_canonicals
    rw [rep_alias_count, List.Perm.count_eq h1, List.Perm.count_eq h2]
    exact List.count_eq_one_of_mem hnd (List.mem_map.2 ⟨k, hk, rfl⟩)
  · intro c hc
    unfold cluster_canonicals at hc
    obtain ⟨l, _, hcl⟩ := List.mem_filterMap.1 hc
    exact create_canonical_no_self _ _ hcl

/-- Claim C4, counterexample to the claim as stated: two entries with
the same text placed in different clusters make that text the
representative of two clusters, so it does not belong to exactly one. -/
theorem claim4_cluster_partition_counterexample :
    dupSkill ∈ [dupSkill, dupSkill]
  ∧ repCount (cluster_canonicals [dupSkill, dupSkill] [0, 1]) dupSkill.kw = 2
  ∧ repCount (cluster_canonicals [dupSkill, dupSkill] [0, 1]) dupSkill.kw
      + aliasCount (cluster_canonicals [dupSkill, dupSkill] [0, 1]) dupSkill.kw
      ≠ 1 := by
  have h1 : ([dupSkill, dupSkill].zip [0, 1]).map (·.2) = [0, 1] := rfl
  have h2 : firstKeys [0, 1] = [0, 1] := by
    simp [firstKeys]
  have h : cluster_canonicals [dupSkill, dupSkill] [0, 1]
      = [{ base := dupSkill, aliases := [] },
         { base := dupSkill, aliases := [] }] := by
    simp only [cluster_canonicals]
    rw [h1, h2]
    decide
  refine ⟨by decide, ?_, ?_⟩
  · rw [h]
    decide
  · rw [h]
    decide

/-- Claim C4, witness: the amended theorem at two distinct keywords in
one cluster. -/
theorem claim4_cluster_partition_witness :
    repCount (cluster_canonicals [distinctSkillA, distinctSkillB] [0, 0])
        distinctSkillA.kw
      + aliasCount (cluster_canonicals [distinctSkillA, distinctSkillB] [0, 0])
        distinctSkillA.kw = 1 :=
  (claim4_cluster_partition [distinctSkillA, distinctSkillB] [0, 0] rfl
    (by decide)).1 distinctSkillA (by decide)

/-- Claim C5.  With the default (nonnegative) weights and multipliers,
the composite score after `calculate_base_score`, `apply_enhancements`
and `apply_buzzword_filtering` is monotone non-decreasing in the tfidf
score, the section score and the role weight, the keyword and posting
texts held fixed. -/
theorem claim5_composite_monotone (kw job : String) (dropBuzz : Bool)
    (t1 t2 s1 s2 r1 r2 : ℚ)
    (ht : t1 ≤ t2) (hs : s1 ≤ s2) (hr : r1 ≤ r2) :
    optionScoreLe (compositeScore t1 s1 r1 kw job dropBuzz)
      (compositeScore t2 s2 r2 kw job dropBuzz) := by
  have henh : apply_enhancements (calculate_base_score t1 s1 r1) kw job
      ≤ apply_enhancements (calculate_base_score t2 s2 r2) kw job := by
    rw [apply_enhancements_eq, apply_enhancements_eq]
    exact mul_le_mul_of_nonneg_right (base_score_mono ht hs hr)
      (le_of_lt (enhancementFactor_pos kw job))
  unfold compositeScore apply_buzzword_filtering
  by_cases hb : is_buzzword kw
  · by_cases hd : dropBuzz
    · simp only [hb, hd]
      trivial
    · simp only [hb, hd]
      simp only [Bool.and_false, Bool.false_eq_true, if_false, if_pos]
      have : (0:ℚ) ≤ buzzwordPenalty := by decide
      exact mul_le_mul_of_nonneg_right henh this
  · simp only [hb]
    simp only [Bool.false_and, Bool.false_eq_true, if_false]
    exact henh

/-- Claim C5, witness: the monotonicity theorem at a concrete keyword
and componentwise-ordered inputs. -/
theorem claim5_composite_monotone_witness :
    optionScoreLe (compositeScore 0 0 0 "platform strategy" "" false)
      (compositeScore 1 1 1 "platform strategy" "" false) :=
  claim5_composite_monotone "platform strategy" "" false 0 1 0 1 0 1
    (by norm_num) (by norm_num) (by norm_num)

/-- Claim C6 (amended).  When more canonical skills than the floor come
in and at least the floor many pass the threshold test, `trim_by_median`
returns exactly the entries whose score is at least (not strictly above)
the threshold `median * multiplier`. -/
theorem claim6_trim_threshold (l : List KwResult) (mult : ℚ) (minK : ℕ)
    (h1 : minK < l.length)
    (h2 : minK ≤ (l.filter (fun k => trimThreshold l mult ≤ k.score)).length) :
    trim_by_median l mult minK = l.filter (fun k => trimThreshold l mult ≤ k.score)
  ∧ ∀ e ∈ trim_by_median l mult minK, trimThreshold l mult ≤ e.score := by
  have heq : trim_by_median l mult minK
      = l.filter (fun k => trimThreshold l mult ≤ k.score) := by
    unfold trim_by_median
    simp only [if_neg (not_le.2 h1), if_neg (not_lt.2 h2)]
  refine ⟨heq, ?_⟩
  intro e he
  rw [heq] at he
  exact of_decide_eq_true (List.mem_filter.1 he).2

/-- Claim C6, counterexample to the claim as stated: in a 21-entry list
with median 10, the threshold is 12 and the ten entries scoring exactly
12 are kept although they are not strictly above it. -/
theorem claim6_trim_threshold_counterexample :
    exTrimEntry 12 ∈ trim_by_median exTrimList (mkRat 6 5) 10
  ∧ trimThreshold exTrimList (mkRat 6 5) = 12
  ∧ ¬ (trimThreshold exTrimList (mkRat 6 5) < (exTrimEntry 12).score) := by
  have hmed : npMedian (exTrimList.map (·.score)) = 10 := by decide
  have hth : trimThreshold exTrimList (mkRat 6 5) = 12 := by
    unfold trimThreshold
    rw [hmed, Rat.mkRat_eq_div]
    norm_num
  have htrim : trim_by_median exTrimList (mkRat 6 5) 10
      = List.replicate 10 (exTrimEntry 12) := by
    unfold trim_by_median
    rw [hth]
    decide
  refine ⟨?_, hth, ?_⟩
  · rw [htrim]
    decide
  · rw [hth]
    decide

/-- Claim C6, witness: the amended theorem at a three-entry list with
floor 1 (median 10, threshold 12, one survivor). -/
theorem claim6_trim_threshold_witness :
    trim_by_median [exTrimEntry 0, exTrimEntry 10, exTrimEntry 100] (mkRat 6 5) 1
      = [exTrimEntry 100] := by
  have hth : trimThreshold [exTrimEntry 0, exTrimEntry 10, exTrimEntry 100]
      (mkRat 6 5) = 12 := by
    have hmed : npMedian ([exTrimEntry 0, exTrimEntry 10, exTrimEntry 100].map
        (·.score)) = 10 := by decide
    unfold trimThreshold
    rw [hmed, Rat.mkRat_eq_div]
    norm_num
  have h := (claim6_trim_threshold [exTrimEntry 0, exTrimEntry 10, exTrimEntry 100]
    (mkRat 6 5) 1 (by decide) (by simp only [hth]; decide)).1
  rw [h]
  simp only [hth]
  decide

/-- Claim C7.  `trim_by_median` never returns fewer than
`min floor (input size)` entries, is the identity when the input size is
at most the floor, and falls back to the top floor entries by descending
score when fewer than the floor pass the threshold test. -/
theorem claim7_trim_floor (l : List KwResult) (mult : ℚ) (minK : ℕ) :
    min minK l.length ≤ (trim_by_median l mult minK).length
  ∧ (l.length ≤ minK → trim_by_median l mult minK = l)
  ∧ (minK < l.length →
      (l.filter (fun k => trimThreshold l mult ≤ k.score)).length < minK →
      trim_by_median l mult minK = (List.insertionSort scoreDescLe l).take minK) := by
  refine ⟨?_, ?_, ?_⟩
  · unfold trim_by_median
    by_cases h1 : l.length ≤ minK
    · simp only [if_pos h1]
      omega
    · simp only [if_neg h1]
      by_cases h2 : (l.filter (fun k => trimThreshold l mult ≤ k.score)).length < minK
      · simp only [if_pos h2]
        rw [List.length_take, List.length_insertionSort]
      · simp only [if_neg h2]
        omega
  · intro h
    unfold trim_by_median
    simp only [if_pos h]
  · intro h1 h2
    unfold trim_by_median
    simp only [if_neg (not_le.2 h1), if_pos h2]

/-- Claim C8.  A keyword that is not excluded by the soft-skill lexicon
and matches a years pattern is classified knockout with confidence
exactly 0.8 by the years short-circuit, preferred when a preference word
occurs in the text and required otherwise, whatever the score, tfidf and
role weight. -/
theorem claim8_years_shortcircuit (kw : String) (score tfidf roleW : ℚ)
    (h1 : is_soft_skill (pyLower kw) = false)
    (h2 : reSearch yearsPatterns (pyLower kw).data = true) :
    categorize_keyword kw score tfidf roleW =
      { category := .knockout,
        knockoutType := some (if yearsPreferenceWords.any
            (fun w => strContains (pyLower kw) w)
          then KnockoutType.preferred else KnockoutType.required),
        confidence := mkRat 4 5,
        detectionMethod := "years_based" } := by
  unfold categorize_keyword detect_years_knockout
  simp [h1, h2]

/-- Claim C8, witness: the spec's own example
"5+ years of product management experience" is knockout/required with
confidence 0.8. -/
theorem claim8_years_shortcircuit_witness :
    categorize_keyword "5+ years of product management experience" 1 0 (mkRat 6 5)
      = { category := .knockout, knockoutType := some KnockoutType.required,
          confidence := mkRat 4 5, detectionMethod := "years_based" } := by
  rw [claim8_years_shortcircuit _ 1 0 (mkRat 6 5) (by decide) (by decide)]
  decide

/-- Claim C9 (amended).  With nonempty valid resume content, every
keyword is processed independently; a keyword whose similarity
computation fails still receives `min 3 n` injection points, all with
similarity 0 — not zero injection points. -/
theorem claim9_injection_failure (content : List ContentItem)
    (keywords : List KwResult) (cosOf : String → Option (List ℚ))
    (hc : content ≠ [])
    (hv : content.filter (fun c => pyStrip c.text ≠ "") ≠ []) :
    (find_injection_points content keywords cosOf
        = keywords.map (fun k =>
            ((processOneKeyword (content.filter (fun c => pyStrip c.text ≠ ""))
                cosOf k).1,
             some (processOneKeyword (content.filter (fun c => pyStrip c.text ≠ ""))
                cosOf k).2)))
  ∧ (∀ k : KwResult, cosOf k.kw = none →
      (processOneKeyword (content.filter (fun c => pyStrip c.text ≠ ""))
          cosOf k).2.length
        = min 3 (content.filter (fun c => pyStrip c.text ≠ "")).length
      ∧ ∀ p ∈ (processOneKeyword (content.filter (fun c => pyStrip c.text ≠ ""))
          cosOf k).2, p.similarity = 0) := by
  constructor
  · unfold find_injection_points
    simp only [if_neg hc, if_neg hv]
  · intro k hk
    set valid := content.filter (fun c => pyStrip c.text ≠ "") with hvalid
    have hsims : compute_keyword_similarities k.kw valid.length (cosOf k.kw)
        = List.replicate valid.length 0 := by
      unfold compute_keyword_similarities
      rw [hk]
      split <;> rfl
    have htops : ∀ i ∈ argsortTop3 (List.replicate valid.length (0:ℚ)),
        i < valid.length := by
      intro i hi
      unfold argsortTop3 at hi
      rw [List.mem_reverse] at hi
      have := List.mem_of_mem_drop hi
      have hmem := (List.mem_insertionSort _).1 this
      rw [List.length_replicate] at hmem
      exact List.mem_range.1 hmem
    have hlen : (argsortTop3 (List.replicate valid.length (0:ℚ))).length
        = min 3 valid.length := by
      unfold argsortTop3
      rw [List.length_reverse, List.length_drop, List.length_insertionSort,
        List.length_replicate, List.length_range]
      omega
    unfold processOneKeyword
    rw [hsims]
    obtain ⟨hl, hm⟩ := filterMap_dite_all valid.length
      (fun idx h => create_injection_point (valid.get ⟨idx, h⟩)
        ((List.replicate valid.length (0:ℚ)).getD idx 0) k.kw)
      (argsortTop3 (List.replicate valid.length (0:ℚ))) htops
    constructor
    · rw [hl, hlen]
    · intro p hp
      obtain ⟨i, hi, _, rfl⟩ := hm p hp
      show qRound3 ((List.replicate valid.length (0:ℚ)).getD i 0) = 0
      rw [getD_replicate_zero]
      exact qRound3_zero

/-- Claim C9, counterexample to the claim as stated: one keyword's
similarity computation fails, yet it is returned with 1 attached
injection point (the single content unit, similarity 0), not zero. -/
theorem claim9_injection_failure_counterexample :
    (find_injection_points [exResumeContent] [exFailKw, exOkKw] exCosOf).map
      (fun p => (p.1.kw, (p.2.getD []).length))
    = [("budget ownership", 1), ("team scaling", 1)] := by decide

/-- Claim C9, witness: the amended theorem at the concrete failing
keyword and single content unit. -/
theorem claim9_injection_failure_witness :
    (processOneKeyword ([exResumeContent].filter (fun c => pyStrip c.text ≠ ""))
        exCosOf exFailKw).2.length
      = min 3 ([exResumeContent].filter (fun c => pyStrip c.text ≠ "")).length :=
  ((claim9_injection_failure [exResumeContent] [exFailKw, exOkKw] exCosOf
    (by decide) (by decide)).2 exFailKw (by decide)).1

/-- Claim C10.  `select_top_results` returns the knockouts as a
permutation ordered with every required-type knockout before every
non-required one and descending score within each group, and the skills
as the trimmed list sorted by descending score and cut to the top N. -/
theorem claim10_output_ordering (kks ts : List KwResult) (top : ℕ) :
    (select_top_results kks ts top).1.Perm kks
  ∧ (select_top_results kks ts top).1.Pairwise (fun a b =>
      (b.knockoutType = some KnockoutType.required →
        a.knockoutType = some KnockoutType.required) ∧
      (typePriority a = typePriority b → b.score ≤ a.score))
  ∧ (∃ s : List KwResult, s.Perm ts ∧ s.Sorted scoreDescLe ∧
      (select_top_results kks ts top).2 = s.take top) := by
  refine ⟨List.perm_insertionSort _ _, ?_, ?_⟩
  · have hsorted := List.sorted_insertionSort knockoutTypeScoreLe kks
    refine hsorted.imp ?_
    intro a b hab
    unfold knockoutTypeScoreLe at hab
    rw [Prod.Lex.le_iff] at hab
    constructor
    · intro hreq
      have hb : typePriority b = 0 := by simp [typePriority, hreq]
      rcases hab with h | ⟨h, _⟩
      · omega
      · by_cases hc : a.knockoutType = some KnockoutType.required
        · exact hc
        · exfalso
          rw [hb] at h
          simp [typePriority, hc] at h
    · intro heq
      rcases hab with h | ⟨_, h⟩
      · omega
      · simpa using h
  · exact ⟨List.insertionSort scoreDescLe ts, List.perm_insertionSort _ _,
      List.sorted_insertionSort _ _, rfl⟩
